import Mathlib

/-!
Verification of the AccessiCommand gesture-to-event debouncing engine and
binding dispatch / key-state reconciliation logic.

The definitions below are shallow embeddings of the corresponding Python
code in the repository:

* `dStep` / `dRun` — the per-frame hysteresis update of a sustained facial
  signal in `FacialDetector._run_detection_loop`
  (`accessicommand/detectors/facial_detector.py`).
* `handStep` / `handRun` — the gesture debounce of
  `HandDetector.process_frame` (`accessicommand/detectors/hand_detector.py`).
* `blinkStep` / `blinkFires` — the cooldown-gated momentary blink logic of
  `FacialDetector._run_detection_loop`.
* `updateKey` / `update_keys` / `release_all_keys` — the key-state
  reconciler of the hardcoded `facial_controller.py`.
* `scanLoop` / `executedAction` — the binding dispatch loop of
  `Engine.handle_event` (`accessicommand/core/engine.py`).
* `facialCallRaisesTypeError` / `initDetectorsFaceEntry` — the keyword
  mechanics of `Engine._initialize_detectors` constructing `FacialDetector`.
* `processSpeech` — the UI-keyword vs system-trigger routing of
  `VoiceDetector._process_speech`
  (`accessicommand/detectors/voice_detector.py`).

Python integers are modeled as `Int`; the Python set of held keys is
modeled as a duplicate-free list; frame timestamps are modeled as `ℚ`.
-/

/-- Edge events emitted by a sustained-signal debouncer: `start` models a
`*_START` event and `stop` models a `*_STOP` event
(`facial_detector.py`, lines 240-243). -/
inductive SEv where
  | start : SEv
  | stop : SEv
  deriving DecidableEq, Repr

/-- Per-signal debouncer state of `FacialDetector`: the hysteresis counter
(e.g. `_mouth_open_counter`) and the previous stable flag
(e.g. `_prev_mouth_open_state`). -/
structure DState where
  counter : Int
  prevStable : Bool
  deriving DecidableEq, Repr

/-- Reset state from `FacialDetector._reset_states`: counters are 0 and the
previous stable flags are `False`. -/
def dReset : DState := ⟨0, false⟩

/-- One frame of the sustained-signal update in
`FacialDetector._run_detection_loop` (the mouth-open pattern of lines
234-243; the both-eyes-closed and eyebrow signals follow the same shape):
`counter = min(T, counter + 1)` when the raw condition holds this frame,
otherwise `counter = max(0, counter - 1)`; `stable = counter >= T`; when
`stable` differs from the previous stable flag, a single edge event is
emitted (START when becoming stable, STOP when leaving it) and the flag is
updated. -/
def dStep (T : Nat) (s : DState) (raw : Bool) : DState × List SEv :=
  let c : Int := if raw then min (T : Int) (s.counter + 1) else max 0 (s.counter - 1)
  let st : Bool := decide ((T : Int) ≤ c)
  if st ≠ s.prevStable then (⟨c, st⟩, [if st then SEv.start else SEv.stop])
  else (⟨c, s.prevStable⟩, [])

/-- Run of the debouncer over a list of per-frame raw booleans, returning
the final state and the emitted edge events in order. -/
def dRun (T : Nat) (s : DState) : List Bool → DState × List SEv
  | [] => (s, [])
  | r :: rs => ((dRun T (dStep T s r).1 rs).1, (dStep T s r).2 ++ (dRun T (dStep T s r).1 rs).2)

/-- Stable flag of a debouncer state, as computed each frame by the source:
`counter >= consec_frames_required`. -/
def dStable (T : Nat) (s : DState) : Bool := decide ((T : Int) ≤ s.counter)

/-- Name of the "no gesture" value, `GESTURE_NONE_EVENT` in
`hand_detector.py`. -/
def GESTURE_NONE : String := "HAND_GESTURE_NONE"

/-- Debounce state of `HandDetector`: `_last_detected_gesture`,
`_gesture_counter` and `_current_stable_gesture`, reset by
`HandDetector._reset_states`. -/
structure HandState where
  lastDetected : String
  gestureCounter : Int
  currentStable : String
  deriving DecidableEq, Repr

/-- Reset state of `HandDetector._reset_states`. -/
def handReset : HandState := ⟨GESTURE_NONE, 0, GESTURE_NONE⟩

/-- Debounce-and-emit step of `HandDetector.process_frame`
(`hand_detector.py` lines 112-126): while the same gesture repeats the
counter increments with no upper clamp, and it resets to 0 on a change;
an event is emitted only when the stable gesture changes. -/
def handStep (T : Nat) (s : HandState) (detected : String) : HandState × List (String × String) :=
  let cnt : Int := if detected = s.lastDetected then s.gestureCounter + 1 else 0
  let last : String := if detected = s.lastDetected then s.lastDetected else detected
  let isStable : Bool := decide ((T : Int) ≤ cnt)
  if (isStable = true ∧ detected ≠ s.currentStable)
      ∨ (cnt = 0 ∧ detected = GESTURE_NONE ∧ s.currentStable ≠ GESTURE_NONE) then
    (⟨last, cnt, if isStable then detected else GESTURE_NONE⟩,
      [(("hand"), if isStable then detected else GESTURE_NONE)])
  else (⟨last, cnt, s.currentStable⟩, [])

/-- Final hand-detector state after processing a list of per-frame detected
gestures. -/
def handRun (T : Nat) (s : HandState) : List String → HandState
  | [] => s
  | g :: gs => handRun T (handStep T s g).1 gs

/-- One per-frame input to the momentary blink logic of
`FacialDetector._run_detection_loop` (lines 219-226): whether this eye's
EAR is below the threshold this frame, whether the other eye's is, and the
frame timestamp `current_time` (modeled as a rational). -/
structure BlinkFrame where
  closedNow : Bool
  otherClosedNow : Bool
  time : ℚ
  deriving DecidableEq

/-- Blink state for one eye: `_left_eye_previously_closed` and
`_last_left_blink_time` (the right eye uses the same code shape). -/
structure BlinkState where
  prevClosed : Bool
  lastFire : ℚ
  deriving DecidableEq

/-- Reset blink state from `FacialDetector._reset_states`: previously-closed
false, last blink time 0. -/
def blinkReset : BlinkState := ⟨false, 0⟩

/-- One frame of the blink logic (lines 222-226): the event fires when the
eye is closed now, was not previously closed, more than `cooldown` has
elapsed since the last firing, and the other eye is open; the last-fire
time is updated only on firing, while the previously-closed flag always
updates to this frame's closed flag. -/
def blinkStep (cooldown : ℚ) (s : BlinkState) (f : BlinkFrame) : BlinkState × Bool :=
  let fire : Bool :=
    f.closedNow && !s.prevClosed && decide (cooldown < f.time - s.lastFire) && !f.otherClosedNow
  (⟨f.closedNow, if fire then f.time else s.lastFire⟩, fire)

/-- Timestamps at which the blink event fires along a run of frames. -/
def blinkFires (cooldown : ℚ) (s : BlinkState) : List BlinkFrame → List ℚ
  | [] => []
  | f :: fs =>
    if (blinkStep cooldown s f).2 then f.time :: blinkFires cooldown (blinkStep cooldown s f).1 fs
    else blinkFires cooldown (blinkStep cooldown s f).1 fs

/-- Key-down / key-up calls issued to `pyautogui` by the hardcoded
`facial_controller.py`. -/
inductive KeyOp where
  | down : String → KeyOp
  | up : String → KeyOp
  deriving DecidableEq, Repr

/-- One (key, should_press) item of the `update_keys` loop
(`facial_controller.py` lines 166-174): `keyDown` and add to the held set
when the key should be pressed and is not currently held; `keyUp` and
remove when it should not be pressed and is held; otherwise nothing. The
Python set `keys_currently_pressed` is modeled as a duplicate-free list
(insertion at the head; the set's iteration order is irrelevant to the
verified properties). -/
def updateKey (held : List String) (kv : String × Bool) : List String × List KeyOp :=
  if kv.2 = true ∧ kv.1 ∉ held then (kv.1 :: held, [KeyOp.down kv.1])
  else if kv.2 = false ∧ kv.1 ∈ held then (held.erase kv.1, [KeyOp.up kv.1])
  else (held, [])

/-- The `update_keys` function of `facial_controller.py`: processes the
items of the `actions_to_perform` dictionary in order, threading the held
set and collecting the issued key operations. -/
def update_keys : List String → List (String × Bool) → List String × List KeyOp
  | held, [] => (held, [])
  | held, kv :: rest =>
    ((update_keys (updateKey held kv).1 rest).1,
      (updateKey held kv).2 ++ (update_keys (updateKey held kv).1 rest).2)

/-- The `release_all_keys` function of `facial_controller.py` (lines
186-192): `keyUp` for every currently held key, then clear the set. -/
def release_all_keys (held : List String) : List String × List KeyOp :=
  ([], held.map KeyOp.up)

/-- Held set after processing a sequence of per-frame action dictionaries
starting from the given held set (the controller's main loop calls
`update_keys(actions)` once per frame). -/
def runFrames (held : List String) : List (List (String × Bool)) → List String
  | [] => held
  | f :: fs => runFrames (update_keys held f).1 fs

/-- Python `str.lower()` (as used at `engine.py` lines 162 and 164 and
`voice_detector.py` line 90), modeled as per-character lowercasing. It is
defined structurally on the character list so that concrete instances
evaluate. -/
def pyLower (s : String) : String := String.mk (s.toList.map Char.toLower)

/-- A user binding as consumed by `Engine.handle_event`: each field models
the corresponding `binding.get(...)` lookup, with `none` for a missing
entry. -/
structure Binding where
  trigger_type : Option String
  trigger_event : Option String
  action_id : Option String
  deriving DecidableEq, Repr

/-- Python truthiness of an optional string (`if action_id_to_execute:`):
`None` and the empty string are falsy. -/
def truthy : Option String → Bool
  | none => false
  | some s => !s.isEmpty

/-- Binding match test of `Engine.handle_event` (`engine.py` line 164):
`binding.get("trigger_type") == detector_type` (an exact, case-sensitive
comparison) and `str(binding.get("trigger_event", "")).lower() ==
event_key`, where `event_key` is the already-lowercased event name. -/
def bindingMatches (b : Binding) (detectorType : String) (eventKey : String) : Bool :=
  b.trigger_type == some detectorType && pyLower (b.trigger_event.getD ("")) == eventKey

/-- The binding scan loop of `Engine.handle_event` (lines 162-167): walk
the bindings in order; on a match assign `action_id_to_execute` (`acc`)
and break only when the matched `action_id` is truthy; on a falsy match
log a warning and keep scanning. -/
def scanLoop (detectorType eventKey : String) (acc : Option String) :
    List Binding → Option String
  | [] => acc
  | b :: bs =>
    if bindingMatches b detectorType eventKey then
      if truthy b.action_id then b.action_id
      else scanLoop detectorType eventKey b.action_id bs
    else scanLoop detectorType eventKey acc bs

/-- Action that `Engine.handle_event` actually executes for an event: the
event name is lowercased (line 162), the bindings are scanned, and the
resulting id is executed only if truthy (line 168). -/
def executedAction (bindings : List Binding) (detectorType eventName : String) : Option String :=
  if truthy (scanLoop detectorType (pyLower eventName) none bindings) then
    scanLoop detectorType (pyLower eventName) none bindings
  else none

/-- Parameter names accepted by `FacialDetector.__init__`
(`facial_detector.py` lines 64-79); the signature declares no `**kwargs`. -/
def facialInitParams : List String :=
  ["event_handler", "camera_index", "ear_threshold", "mar_threshold", "err_threshold",
    "both_eyes_closed_frames", "head_tilt_left_min", "head_tilt_left_max",
    "head_tilt_right_min", "head_tilt_right_max", "consec_frames_mouth",
    "consec_frames_eyebrow", "consec_frames_head_tilt", "blink_cooldown", "show_video"]

/-- Keys of the `'face'` defaults dictionary of `Engine._initialize_detectors`
(`engine.py` lines 104-113). The settings-override loop (lines 137-139)
changes only values, never keys. -/
def engineFaceDefaultKeys : List String :=
  ["ear_threshold", "mar_threshold", "err_threshold", "both_eyes_closed_frames",
    "head_tilt_left_min", "head_tilt_left_max", "head_tilt_right_min",
    "head_tilt_right_max", "consec_frames_blink", "consec_frames_mouth",
    "consec_frames_eyebrow", "consec_frames_head_tilt", "blink_cooldown"]

/-- Keyword-argument names of the `DetectorClass(event_handler=..., **init_kwargs)`
call for the face detector: the defaults keys minus the entries popped at
lines 141-142, plus the explicit `event_handler` keyword. -/
def faceCallKwargNames : List String :=
  ("event_handler") :: engineFaceDefaultKeys.filter
    (fun n => n ≠ ("camera_index") ∧ n ≠ ("show_video"))

/-- CPython call semantics for a function whose signature has no `**kwargs`:
the call raises `TypeError` exactly when some keyword-argument name is not
a declared parameter name. -/
def facialCallRaisesTypeError : Bool :=
  faceCallKwargNames.any (fun n => !(facialInitParams.contains n))

/-- Presence of the `'face'` entry of `Engine.detectors` after
`_initialize_detectors`: the entry is set (line 145) only when a face
binding exists (line 124) and the construction call did not raise; a
raised exception is caught at line 152 and the entry is skipped. -/
def faceDetectorEntry (bindings : List Binding) : Option Unit :=
  if bindings.any (fun b => b.trigger_type == some ("face")) then
    if facialCallRaisesTypeError then none else some ()
  else none

/-- The hardcoded `UI_KEYWORDS` set of `voice_detector.py` (line 15). -/
def UI_KEYWORDS : List String :=
  ["start", "stop", "config", "configuration", "settings", "bindings", "open",
    "click", "press", "engine", "window", "gui", "ui"]

/-- Characters stripped from the whole transcription by `_process_speech`
(line 91): space, period, comma, bang, question mark, double quote,
apostrophe, newline, tab. -/
def phraseStripChars : List Char :=
  [' ', '.', ',', '!', '?', Char.ofNat 34, Char.ofNat 39, '\n', '\t']

/-- Characters stripped from each word before the system-trigger check
(line 117). -/
def wordStripChars : List Char :=
  ['.', ',', '!', '?', Char.ofNat 34, Char.ofNat 39]

/-- Python `str.strip(chars)`: remove leading and trailing characters that
occur in `chars`. -/
def pyStrip (chars : List Char) (s : String) : String :=
  String.mk (((s.toList.dropWhile (fun c => chars.contains c)).reverse.dropWhile
    (fun c => chars.contains c)).reverse)

/-- Helper for `pySplitWhitespace`: cut the character list at each
whitespace character, accumulating the current piece in reverse. -/
def splitWsAux : List Char → List Char → List String
  | [], acc => [String.mk acc.reverse]
  | c :: cs, acc =>
    if c.isWhitespace then String.mk acc.reverse :: splitWsAux cs []
    else splitWsAux cs (c :: acc)

/-- Python `str.split()` with no argument: split on whitespace, dropping
empty pieces. -/
def pySplitWhitespace (s : String) : List String :=
  (splitWsAux s.toList []).filter (fun w => !w.isEmpty)

/-- The transcription-processing logic of `VoiceDetector._process_speech`
(lines 88-132), taking the raw transcription (whose lowering at line 90
is applied here) and the registered system trigger words: lowercase and
strip the phrase; if it has no words do nothing; if any word is a UI
keyword, emit the single `("ui_command", phrase)` event and return;
otherwise emit a `("voice", word)` event for each punctuation-stripped
nonempty word that is a registered system trigger word. -/
def processSpeech (transcribed : String) (systemTriggerWords : List String) :
    List (String × String) :=
  let cleanedText := pyStrip phraseStripChars (pyLower transcribed)
  let wordsSet := pySplitWhitespace cleanedText
  if wordsSet.isEmpty then []
  else if wordsSet.any (fun w => UI_KEYWORDS.contains w) then
    [(("ui_command"), cleanedText)]
  else
    (pySplitWhitespace cleanedText).filterMap (fun w =>
      let cw := pyStrip wordStripChars w
      if !cw.isEmpty && systemTriggerWords.contains cw then some (("voice"), cw) else none)

theorem dStep_counter (T : Nat) (s : DState) (raw : Bool) :
    (dStep T s raw).1.counter =
      if raw then min (T : Int) (s.counter + 1) else max 0 (s.counter - 1) := by
  unfold dStep
  dsimp only
  split <;> split <;> rfl

theorem dStep_counter_bounds (T : Nat) (s : DState) (raw : Bool)
    (h1 : 0 ≤ s.counter) (h2 : s.counter ≤ (T : Int)) :
    0 ≤ (dStep T s raw).1.counter ∧ (dStep T s raw).1.counter ≤ (T : Int) := by
  rw [dStep_counter]
  cases raw <;> simp <;> omega

theorem dRun_counter_bounds (T : Nat) (s : DState) (raws : List Bool)
    (h1 : 0 ≤ s.counter) (h2 : s.counter ≤ (T : Int)) :
    0 ≤ (dRun T s raws).1.counter ∧ (dRun T s raws).1.counter ≤ (T : Int) := by
  induction raws generalizing s with
  | nil => exact ⟨h1, h2⟩
  | cons r rs ih =>
    have hb := dStep_counter_bounds T s r h1 h2
    simpa [dRun] using ih (dStep T s r).1 hb.1 hb.2

theorem dRun_append (T : Nat) (s : DState) (l1 l2 : List Bool) :
    dRun T s (l1 ++ l2) =
      ((dRun T (dRun T s l1).1 l2).1, (dRun T s l1).2 ++ (dRun T (dRun T s l1).1 l2).2) := by
  induction l1 generalizing s with
  | nil => simp [dRun]
  | cons r rs ih => simp [dRun, ih]

theorem dStep_true_noCross (T : Nat) (s : DState)
    (h2 : s.counter + 1 < (T : Int)) (h3 : s.prevStable = false) :
    dStep T s true = (⟨s.counter + 1, false⟩, []) := by
  unfold dStep
  have hmin : min (T : Int) (s.counter + 1) = s.counter + 1 := by omega
  have hst : ¬ ((T : Int) ≤ s.counter + 1) := by omega
  simp [hmin, hst, h3]

theorem dStep_true_cross (T : Nat) (s : DState)
    (h2 : (T : Int) ≤ s.counter + 1) (h3 : s.prevStable = false) :
    dStep T s true = (⟨(T : Int), true⟩, [SEv.start]) := by
  unfold dStep
  have hmin : min (T : Int) (s.counter + 1) = (T : Int) := by omega
  have hst : (T : Int) ≤ (T : Int) := le_refl _
  simp [hmin, hst, h3]

theorem dStep_true_steady (T : Nat) :
    dStep T ⟨(T : Int), true⟩ true = (⟨(T : Int), true⟩, []) := by
  unfold dStep
  have hmin : min (T : Int) ((T : Int) + 1) = (T : Int) := by omega
  have hst : (T : Int) ≤ (T : Int) := le_refl _
  simp [hmin, hst]

theorem dStep_false_low (T : Nat) (s : DState)
    (hT : 0 < T) (h1 : s.counter < (T : Int)) (h3 : s.prevStable = false) :
    dStep T s false = (⟨max 0 (s.counter - 1), false⟩, []) := by
  unfold dStep
  have hst : ¬ ((T : Int) ≤ max 0 (s.counter - 1)) := by omega
  simp [hst, h3]

theorem dStep_false_drop (T : Nat) (hT : 0 < T) :
    dStep T ⟨(T : Int), true⟩ false = (⟨(T : Int) - 1, false⟩, [SEv.stop]) := by
  unfold dStep
  have hmax : max 0 ((T : Int) - 1) = (T : Int) - 1 := by omega
  have hst : ¬ ((T : Int) ≤ (T : Int) - 1) := by omega
  simp [hmax, hst]

theorem dRun_true_below (T : Nat) (k : Nat) (c : Int)
    (h : c + k < (T : Int)) :
    dRun T ⟨c, false⟩ (List.replicate k true) = (⟨c + k, false⟩, []) := by
  induction k generalizing c with
  | zero => simp [dRun]
  | succ n ih =>
    rw [List.replicate_succ]
    have hstep : dStep T ⟨c, false⟩ true = (⟨c + 1, false⟩, []) := by
      apply dStep_true_noCross
      · push_cast at h ⊢; omega
      · rfl
    have hrec := ih (c + 1) (by push_cast at h ⊢; omega)
    have hc : c + 1 + (n : Int) = c + ((n + 1 : Nat) : Int) := by push_cast; ring
    simp only [dRun, hstep, hrec, hc]
    simp

theorem dRun_true_steady (T : Nat) (k : Nat) :
    dRun T ⟨(T : Int), true⟩ (List.replicate k true) = (⟨(T : Int), true⟩, []) := by
  induction k with
  | zero => simp [dRun]
  | succ n ih =>
    rw [List.replicate_succ]
    simp only [dRun, dStep_true_steady, ih]
    simp

theorem dRun_false_low (T : Nat) (k : Nat) (c : Int)
    (hT : 0 < T) (h0 : 0 ≤ c) (h1 : c < (T : Int)) :
    dRun T ⟨c, false⟩ (List.replicate k false) = (⟨max 0 (c - k), false⟩, []) := by
  induction k generalizing c with
  | zero =>
    have hc : max 0 (c - ((0 : Nat) : Int)) = c := by push_cast; omega
    rw [List.replicate_zero, hc]
    simp [dRun]
  | succ n ih =>
    rw [List.replicate_succ]
    have hstep := dStep_false_low T ⟨c, false⟩ hT h1 rfl
    have hrec := ih (max 0 (c - 1)) (by omega) (by omega)
    have hc : max 0 (max 0 (c - 1) - (n : Int)) = max 0 (c - ((n + 1 : Nat) : Int)) := by
      push_cast; omega
    simp only [dRun, hstep, hrec, hc]
    simp

theorem dRun_riseT (T : Nat) (hT : 1 ≤ T) :
    dRun T dReset (List.replicate T true) = (⟨(T : Int), true⟩, [SEv.start]) := by
  obtain ⟨m, rfl⟩ : ∃ m, T = m + 1 := ⟨T - 1, by omega⟩
  rw [List.replicate_succ']
  rw [show dReset = (⟨(0 : Int), false⟩ : DState) from rfl]
  rw [dRun_append]
  rw [dRun_true_below (m + 1) m 0 (by push_cast; omega)]
  have hstep : dStep (m + 1) ⟨(0 : Int) + m, false⟩ true
      = (⟨((m + 1 : Nat) : Int), true⟩, [SEv.start]) := by
    apply dStep_true_cross
    · push_cast; omega
    · rfl
  simp only [dRun, hstep]
  simp

theorem dRun_fallT (T : Nat) (hT : 1 ≤ T) :
    dRun T ⟨(T : Int), true⟩ (List.replicate T false) = (⟨0, false⟩, [SEv.stop]) := by
  obtain ⟨m, rfl⟩ : ∃ m, T = m + 1 := ⟨T - 1, by omega⟩
  rw [List.replicate_succ]
  have hstep := dStep_false_drop (m + 1) (by omega)
  have hrec := dRun_false_low (m + 1) m (((m + 1 : Nat) : Int) - 1)
    (by omega) (by push_cast; omega) (by push_cast; omega)
  have hc : max 0 ((((m + 1 : Nat) : Int) - 1) - (m : Int)) = 0 := by push_cast; omega
  rw [hc] at hrec
  simp only [dRun, hstep]
  simp only [hrec]
  simp

theorem handStep_counter_nonneg (T : Nat) (s : HandState) (g : String)
    (h : 0 ≤ s.gestureCounter) :
    0 ≤ (handStep T s g).1.gestureCounter := by
  unfold handStep
  dsimp only
  split <;> split <;> simp <;> omega

theorem handRun_counter_nonneg (T : Nat) (s : HandState) (gs : List String)
    (h : 0 ≤ s.gestureCounter) :
    0 ≤ (handRun T s gs).gestureCounter := by
  induction gs generalizing s with
  | nil => exact h
  | cons g gs ih => exact ih (handStep T s g).1 (handStep_counter_nonneg T s g h)

/-- C3 counterexample: the claim that every tracked signal's debounce
counter stays in [0, T] fails on the hand detector, whose gesture counter
has no upper clamp: with threshold 2, four consecutive frames of the same
detected gesture drive the counter to 3 > 2. -/
theorem C3_counterexample :
    (handRun 2 handReset ["OPEN_PALM", "OPEN_PALM", "OPEN_PALM", "OPEN_PALM"]).gestureCounter = 3
    ∧ ¬ ((handRun 2 handReset ["OPEN_PALM", "OPEN_PALM", "OPEN_PALM", "OPEN_PALM"]).gestureCounter
          ≤ (2 : Int)) := by
  decide

/-- C3 (amended): the facial detector's hysteresis counters stay within
[0, T] in every state reachable from a state within those bounds (in
particular from the reset state), and the hand detector's gesture counter
stays nonnegative; the hand counter has no upper bound. -/
theorem C3_amended_counter_bounds (T : Nat) (s : DState) (raws : List Bool)
    (t : HandState) (gs : List String)
    (h1 : 0 ≤ s.counter) (h2 : s.counter ≤ (T : Int)) (h3 : 0 ≤ t.gestureCounter) :
    (0 ≤ (dRun T s raws).1.counter ∧ (dRun T s raws).1.counter ≤ (T : Int))
    ∧ 0 ≤ (handRun T t gs).gestureCounter :=
  ⟨dRun_counter_bounds T s raws h1 h2, handRun_counter_nonneg T t gs h3⟩

/-- C3 witness: the amended bound statement evaluated from the reset states
with threshold 3 and concrete short input sequences. -/
theorem C3_amended_witness :
    0 ≤ dReset.counter ∧ dReset.counter ≤ ((3 : Nat) : Int) ∧ 0 ≤ handReset.gestureCounter
    ∧ ((0 ≤ (dRun 3 dReset [true, false]).1.counter
          ∧ (dRun 3 dReset [true, false]).1.counter ≤ ((3 : Nat) : Int))
        ∧ 0 ≤ (handRun 3 handReset ["FIST"]).gestureCounter) :=
  ⟨by decide, by decide, by decide,
    C3_amended_counter_bounds 3 dReset [true, false] handReset ["FIST"]
      (by decide) (by decide) (by decide)⟩

/-- C4: for a sustained signal with threshold T, starting from reset,
feeding T consecutive raw-true frames makes the stable flag true; feeding
any k < T consecutive true frames leaves it false; and after the T true
frames, T consecutive raw-false frames return the stable flag to false. -/
theorem C4_threshold_behavior (T k : Nat) (hT : 1 ≤ T) (hk : k < T) :
    dStable T (dRun T dReset (List.replicate T true)).1 = true
    ∧ dStable T (dRun T dReset (List.replicate k true)).1 = false
    ∧ dStable T (dRun T dReset (List.replicate T true ++ List.replicate T false)).1 = false := by
  refine ⟨?_, ?_, ?_⟩
  · rw [dRun_riseT T hT]
    simp [dStable]
  · rw [show dReset = (⟨(0 : Int), false⟩ : DState) from rfl]
    rw [dRun_true_below T k 0 (by omega)]
    simp only [dStable]
    simp
    omega
  · rw [dRun_append, dRun_riseT T hT]
    dsimp only
    rw [dRun_fallT T hT]
    simp [dStable]
    omega

/-- C4 witness: the threshold behavior at T = 3 and k = 2. -/
theorem C4_witness :
    1 ≤ 3 ∧ 2 < 3
    ∧ (dStable 3 (dRun 3 dReset (List.replicate 3 true)).1 = true
        ∧ dStable 3 (dRun 3 dReset (List.replicate 2 true)).1 = false
        ∧ dStable 3 (dRun 3 dReset (List.replicate 3 true ++ List.replicate 3 false)).1 = false) :=
  ⟨by decide, by decide, C4_threshold_behavior 3 2 (by decide) (by decide)⟩

/-- C5: from reset, the raw input sequence false*5, true*T, true*5, false*T
produces exactly the event sequence [START, STOP]: one START, one STOP, in
that order. -/
theorem C5_single_start_stop (T : Nat) (hT : 1 ≤ T) :
    (dRun T dReset
      (List.replicate 5 false
        ++ (List.replicate T true ++ (List.replicate 5 true ++ List.replicate T false)))).2
      = [SEv.start, SEv.stop] := by
  have h05 : dRun T dReset (List.replicate 5 false) = (dReset, []) := by
    have h := dRun_false_low T 5 0 (by omega) (by omega) (by omega)
    have hc : max 0 ((0 : Int) - ((5 : Nat) : Int)) = 0 := by push_cast; omega
    rw [hc] at h
    exact h
  rw [dRun_append, h05]
  dsimp only
  rw [dRun_append, dRun_riseT T hT]
  dsimp only
  rw [dRun_append, dRun_true_steady T 5]
  dsimp only
  rw [dRun_fallT T hT]
  simp

/-- C5 witness: the exact event sequence at T = 2. -/
theorem C5_witness :
    1 ≤ 2
    ∧ (dRun 2 dReset
        (List.replicate 5 false
          ++ (List.replicate 2 true ++ (List.replicate 5 true ++ List.replicate 2 false)))).2
        = [SEv.start, SEv.stop] :=
  ⟨by decide, C5_single_start_stop 2 (by decide)⟩

theorem blinkFire_cond (cooldown : ℚ) (s : BlinkState) (f : BlinkFrame)
    (h : (blinkStep cooldown s f).2 = true) :
    cooldown < f.time - s.lastFire := by
  unfold blinkStep at h
  dsimp only at h
  simp only [Bool.and_eq_true, decide_eq_true_eq] at h
  exact h.1.2

theorem blinkFire_state (cooldown : ℚ) (s : BlinkState) (f : BlinkFrame)
    (h : (blinkStep cooldown s f).2 = true) :
    (blinkStep cooldown s f).1.lastFire = f.time := by
  unfold blinkStep at h ⊢
  dsimp only at h ⊢
  rw [h]
  simp

theorem blinkNoFire_state (cooldown : ℚ) (s : BlinkState) (f : BlinkFrame)
    (h : (blinkStep cooldown s f).2 = false) :
    (blinkStep cooldown s f).1.lastFire = s.lastFire := by
  unfold blinkStep at h ⊢
  dsimp only at h ⊢
  rw [h]
  simp

theorem blinkFires_chain (cooldown : ℚ) (s : BlinkState) (fs : List BlinkFrame) :
    List.Chain (fun t1 t2 => cooldown < t2 - t1) s.lastFire (blinkFires cooldown s fs) := by
  induction fs generalizing s with
  | nil => exact List.Chain.nil
  | cons f fs ih =>
    unfold blinkFires
    cases hf : (blinkStep cooldown s f).2 with
    | true =>
      simp only [hf, if_true]
      apply List.Chain.cons
      · exact blinkFire_cond cooldown s f hf
      · have hrest := ih (blinkStep cooldown s f).1
        rw [blinkFire_state cooldown s f hf] at hrest
        exact hrest
    | false =>
      simp only [hf, Bool.false_eq_true, if_false]
      have hrest := ih (blinkStep cooldown s f).1
      rw [blinkNoFire_state cooldown s f hf] at hrest
      exact hrest

/-- C6: along any run, successive fired blink timestamps are separated by
more than the cooldown (starting from the last-fire time in the initial
state), so two would-be firings within `cooldown` seconds of each other
yield at most one fired event; moreover a rising closed-edge arriving
while the cooldown has not yet elapsed is suppressed (no event) while the
previously-closed flag still updates to closed. -/
theorem C6_blink_cooldown (cooldown : ℚ) (s0 : BlinkState) (frames : List BlinkFrame)
    (s : BlinkState) (f : BlinkFrame)
    (h1 : f.closedNow = true) (h2 : s.prevClosed = false)
    (h3 : ¬ cooldown < f.time - s.lastFire) :
    List.Chain (fun t1 t2 => cooldown < t2 - t1) s0.lastFire (blinkFires cooldown s0 frames)
    ∧ (blinkStep cooldown s f).2 = false
    ∧ (blinkStep cooldown s f).1.prevClosed = true := by
  refine ⟨blinkFires_chain cooldown s0 frames, ?_, ?_⟩
  · unfold blinkStep
    dsimp only
    simp [h1, h2, h3]
  · unfold blinkStep
    dsimp only
    exact h1

/-- C6 witness: cooldown 1, reset state, a closed-edge frame at time 1
(inside the cooldown window measured from the initial last-fire time 0). -/
theorem C6_witness :
    (⟨true, false, (1 : ℚ)⟩ : BlinkFrame).closedNow = true
    ∧ blinkReset.prevClosed = false
    ∧ ¬ (1 : ℚ) < (⟨true, false, (1 : ℚ)⟩ : BlinkFrame).time - blinkReset.lastFire
    ∧ (List.Chain (fun t1 t2 => (1 : ℚ) < t2 - t1) blinkReset.lastFire
          (blinkFires 1 blinkReset [⟨true, false, (1 : ℚ)⟩])
        ∧ (blinkStep 1 blinkReset ⟨true, false, (1 : ℚ)⟩).2 = false
        ∧ (blinkStep 1 blinkReset ⟨true, false, (1 : ℚ)⟩).1.prevClosed = true) :=
  ⟨rfl, rfl, by simp [blinkReset],
    C6_blink_cooldown 1 blinkReset [⟨true, false, (1 : ℚ)⟩] blinkReset
      ⟨true, false, (1 : ℚ)⟩ rfl rfl (by simp [blinkReset])⟩

theorem updateKey_nodup (held : List String) (kv : String × Bool) (h : held.Nodup) :
    (updateKey held kv).1.Nodup := by
  unfold updateKey
  split
  · rename_i hc
    exact List.nodup_cons.mpr ⟨hc.2, h⟩
  · split
    · exact List.Nodup.sublist (List.erase_sublist _ _) h
    · exact h

theorem update_keys_nodup (held : List String) (actions : List (String × Bool))
    (h : held.Nodup) : (update_keys held actions).1.Nodup := by
  induction actions generalizing held with
  | nil => exact h
  | cons kv rest ih => exact ih (updateKey held kv).1 (updateKey_nodup held kv h)

theorem runFrames_nodup (held : List String) (frames : List (List (String × Bool)))
    (h : held.Nodup) : (runFrames held frames).Nodup := by
  induction frames generalizing held with
  | nil => exact h
  | cons f fs ih => exact ih (update_keys held f).1 (update_keys_nodup held f h)

/-- C1: after any finite sequence of per-frame key-hold updates starting
from the empty held set, `release_all_keys` leaves the held set empty and
its emitted operations contain exactly one `keyUp` for each key that was
held at the moment of the call, and none for any other key. -/
theorem C1_release_all (frames : List (List (String × Bool))) (k : String) :
    (release_all_keys (runFrames [] frames)).1 = []
    ∧ List.count (KeyOp.up k) (release_all_keys (runFrames [] frames)).2
        = (if k ∈ runFrames [] frames then 1 else 0) := by
  constructor
  · rfl
  · have hnd : (runFrames [] frames).Nodup := runFrames_nodup [] frames List.nodup_nil
    have hinj : Function.Injective KeyOp.up := by
      intro a b hab
      cases hab
      rfl
    have hmap : (release_all_keys (runFrames [] frames)).2
        = (runFrames [] frames).map KeyOp.up := rfl
    rw [hmap, List.count_map_of_injective _ KeyOp.up hinj k]
    exact List.count_eq_of_nodup hnd

/-- C2: delivering the same "press this key" request twice in a row with
no intervening release produces exactly one `keyDown` for that key, and in
general `update_keys` issues `keyDown` only for a key not already in the
held set and `keyUp` only for a key that is in it. -/
theorem C2_keydown_idempotent (held : List String) (k : String) (hk : k ∉ held) :
    List.count (KeyOp.down k)
        ((update_keys held [(k, true)]).2
          ++ (update_keys (update_keys held [(k, true)]).1 [(k, true)]).2) = 1
    ∧ (∀ (h2 : List String) (kv : String × Bool),
        KeyOp.down kv.1 ∈ (updateKey h2 kv).2 → kv.1 ∉ h2)
    ∧ (∀ (h2 : List String) (kv : String × Bool),
        KeyOp.up kv.1 ∈ (updateKey h2 kv).2 → kv.1 ∈ h2) := by
  refine ⟨?_, ?_, ?_⟩
  · have h1 : updateKey held (k, true) = (k :: held, [KeyOp.down k]) := by
      unfold updateKey
      simp [hk]
    have h2 : updateKey (k :: held) (k, true) = (k :: held, []) := by
      unfold updateKey
      simp
    simp [update_keys, h1, h2, List.count_cons]
  · intro h2 kv hmem
    unfold updateKey at hmem
    split at hmem
    · rename_i hc
      exact hc.2
    · split at hmem <;> simp_all
  · intro h2 kv hmem
    unfold updateKey at hmem
    split at hmem
    · simp_all
    · split at hmem
      · rename_i hc
        exact hc.2
      · simp_all

/-- C2 witness: the idempotence statement from the empty held set with key
a. -/
theorem C2_witness :
    ("a" ∉ ([] : List String))
    ∧ (List.count (KeyOp.down ("a"))
          ((update_keys [] [(("a"), true)]).2
            ++ (update_keys (update_keys [] [(("a"), true)]).1 [(("a"), true)]).2) = 1
        ∧ (∀ (h2 : List String) (kv : String × Bool),
            KeyOp.down kv.1 ∈ (updateKey h2 kv).2 → kv.1 ∉ h2)
        ∧ (∀ (h2 : List String) (kv : String × Bool),
            KeyOp.up kv.1 ∈ (updateKey h2 kv).2 → kv.1 ∈ h2)) :=
  ⟨by decide, C2_keydown_idempotent [] ("a") (by decide)⟩

/-- C7 counterexample: with a first matching binding whose `action_id` is
missing, the scan does not stop there: the second matching binding is
considered and its action is the one executed, so the first matching
binding does not determine the executed action. -/
theorem C7_counterexample :
    bindingMatches ⟨some ("face"), some ("x"), none⟩ ("face") ("x") = true
    ∧ bindingMatches ⟨some ("face"), some ("x"), some ("A2")⟩ ("face") ("x") = true
    ∧ executedAction
        [⟨some ("face"), some ("x"), none⟩, ⟨some ("face"), some ("x"), some ("A2")⟩]
        ("face") ("x") = some ("A2") := by
  refine ⟨by decide, by decide, by decide⟩

theorem scanLoop_exec (detectorType eventKey : String) (bs : List Binding)
    (acc : Option String) (hacc : truthy acc = false) :
    (if truthy (scanLoop detectorType eventKey acc bs) then
        scanLoop detectorType eventKey acc bs
      else none)
      = (bs.find? (fun b =>
            bindingMatches b detectorType eventKey && truthy b.action_id)).bind
          Binding.action_id := by
  induction bs generalizing acc with
  | nil => simp [scanLoop, hacc]
  | cons b bs ih =>
    unfold scanLoop
    cases hm : bindingMatches b detectorType eventKey with
    | true =>
      cases ht : truthy b.action_id with
      | true =>
        simp only [hm, if_true, ht]
        rw [List.find?_cons_of_pos _ (by simp [hm, ht])]
        simp
      | false =>
        simp only [hm, if_true, ht, Bool.false_eq_true, if_false]
        rw [List.find?_cons_of_neg _ (by simp [hm, ht])]
        exact ih b.action_id ht
    | false =>
      simp only [hm, Bool.false_eq_true, if_false]
      rw [List.find?_cons_of_neg _ (by simp [hm])]
      exact ih acc hacc

/-- C7 (amended): the executed action is the `action_id` of the first
binding in list order that matches the event and carries a truthy
(present, non-empty) `action_id`; matching bindings with a falsy
`action_id` are skipped with a warning and the scan continues past them. -/
theorem C7_amended_first_truthy_match (bindings : List Binding)
    (detectorType eventName : String) :
    executedAction bindings detectorType eventName
      = (bindings.find? (fun b =>
            bindingMatches b detectorType (pyLower eventName) && truthy b.action_id)).bind
          Binding.action_id := by
  unfold executedAction
  exact scanLoop_exec detectorType (pyLower eventName) bindings none rfl

/-- C8 counterexample: changing only the letter case of `trigger_type`
(from face to Face) flips the match test for the same event, so
matching is not invariant under case changes of both components. -/
theorem C8_counterexample :
    bindingMatches ⟨some ("Face"), some ("x"), some ("A")⟩ ("face") ("x") = false
    ∧ bindingMatches ⟨some ("face"), some ("x"), some ("A")⟩ ("face") ("x") = true := by
  refine ⟨by decide, by decide⟩

/-- C8 (amended): matching is case-insensitive in the `trigger_event`
component and in the incoming event name — replacing either by any string
with the same lowercase image leaves the match test unchanged — but the
`trigger_type` comparison is exact (case-sensitive). -/
theorem C8_amended_event_case_insensitive (ty : Option String) (a : Option String)
    (dt e eAlt ev evAlt : String)
    (h1 : pyLower e = pyLower eAlt) (h2 : pyLower ev = pyLower evAlt) :
    bindingMatches ⟨ty, some e, a⟩ dt (pyLower ev)
      = bindingMatches ⟨ty, some eAlt, a⟩ dt (pyLower evAlt) := by
  simp [bindingMatches, h1, h2]

/-- C8 witness: the amended invariance applied at case-variant
trigger-event and event-name strings. -/
theorem C8_witness :
    pyLower ("X") = pyLower ("x")
    ∧ pyLower ("Y") = pyLower ("y")
    ∧ bindingMatches ⟨some ("face"), some ("X"), some ("A")⟩ ("face") (pyLower ("Y"))
        = bindingMatches ⟨some ("face"), some ("x"), some ("A")⟩ ("face") (pyLower ("y")) :=
  ⟨by decide, by decide,
    C8_amended_event_case_insensitive (some ("face")) (some ("A")) ("face")
      ("X") ("x") ("Y") ("y") (by decide) (by decide)⟩

/-- C9: whenever at least one binding has trigger type face, the keyword
dictionary that `Engine._initialize_detectors` builds for `FacialDetector`
contains `consec_frames_blink`, which `FacialDetector.__init__` does not
accept, so the construction call raises `TypeError`; the exception is
caught and the engine's detectors mapping ends up with no face entry. -/
theorem C9_face_init_fails (bindings : List Binding)
    (h : bindings.any (fun b => b.trigger_type == some ("face")) = true) :
    faceCallKwargNames.contains ("consec_frames_blink") = true
    ∧ facialInitParams.contains ("consec_frames_blink") = false
    ∧ facialCallRaisesTypeError = true
    ∧ faceDetectorEntry bindings = none := by
  refine ⟨by decide, by decide, by decide, ?_⟩
  have hr : facialCallRaisesTypeError = true := by decide
  simp [faceDetectorEntry, h, hr]

/-- C9 witness: a configuration with a single face binding. -/
theorem C9_witness :
    ([⟨some ("face"), some ("mouth_open_start"), some ("PRESS_A_DOWN")⟩] : List Binding).any
        (fun b => b.trigger_type == some ("face")) = true
    ∧ (faceCallKwargNames.contains ("consec_frames_blink") = true
        ∧ facialInitParams.contains ("consec_frames_blink") = false
        ∧ facialCallRaisesTypeError = true
        ∧ faceDetectorEntry
            [⟨some ("face"), some ("mouth_open_start"), some ("PRESS_A_DOWN")⟩] = none) :=
  ⟨by decide,
    C9_face_init_fails [⟨some ("face"), some ("mouth_open_start"), some ("PRESS_A_DOWN")⟩]
      (by decide)⟩

/-- C10: when the cleaned transcription contains at least one word of the
hardcoded `UI_KEYWORDS` set, `_process_speech` emits exactly the single
`("ui_command", phrase)` event and returns before the system-trigger
scan, so no `("voice", word)` event is produced for that phrase even if a
bound trigger word also occurs in it. -/
theorem C10_ui_keyword_priority (transcribed : String) (triggers : List String)
    (h : (pySplitWhitespace (pyStrip phraseStripChars (pyLower transcribed))).any
          (fun w => UI_KEYWORDS.contains w) = true) :
    processSpeech transcribed triggers
        = [(("ui_command"), pyStrip phraseStripChars (pyLower transcribed))]
    ∧ ∀ p ∈ processSpeech transcribed triggers, p.1 ≠ ("voice") := by
  have hne : (pySplitWhitespace (pyStrip phraseStripChars (pyLower transcribed))).isEmpty
      = false := by
    cases hE : pySplitWhitespace (pyStrip phraseStripChars (pyLower transcribed)) with
    | nil => rw [hE] at h; simp at h
    | cons a l => rfl
  have he : processSpeech transcribed triggers
      = [(("ui_command"), pyStrip phraseStripChars (pyLower transcribed))] := by
    unfold processSpeech
    simp only [hne, h, Bool.false_eq_true, if_false, if_true]
  refine ⟨he, ?_⟩
  intro p hp
  rw [he] at hp
  simp only [List.mem_singleton] at hp
  rw [hp]
  show ("ui_command") ≠ ("voice")
  decide

/-- C10 witness: the phrase open the door contains the UI keyword open,
and even with door registered as a system trigger word only the
ui_command event is emitted. -/
theorem C10_witness :
    ((pySplitWhitespace (pyStrip phraseStripChars (pyLower ("open the door")))).any
        (fun w => UI_KEYWORDS.contains w) = true)
    ∧ (processSpeech ("open the door") ["door"]
          = [(("ui_command"), pyStrip phraseStripChars (pyLower ("open the door")))]
        ∧ ∀ p ∈ processSpeech ("open the door") ["door"], p.1 ≠ ("voice")) :=
  ⟨by decide, C10_ui_keyword_priority ("open the door") ["door"] (by decide)⟩
